import Mathlib

set_option maxRecDepth 100000
set_option maxHeartbeats 1000000

/-!
# Verification of the Tivua post-filter compiler (`tivua.database_filters`)

The repository ships the test suites `tivua/test/test_database_filters.py`
and `tivua/tests/test_database_filters.py` together with callers in
`tivua/api.py` and `tivua/server.py`, but the module
`tivua/database_filters.py` itself is not part of the source snapshot.
The definitions below therefore model that module from the specification
(sections 3, 4.2, 4.3, 4.4, 6 and 8 of `spec.md`); every modelled
definition carries a doc comment saying so.  The observable behaviour of
the model is checked against the literal SQL strings asserted by the two
in-repository test suites.
-/

namespace Tivua

/-- Modelled from the spec: the predicate AST of `tivua.database_filters`
(§3 of the spec; class names `FilterTrue`, `FilterFalse`, `FilterUID`,
`FilterAuthor`, `FilterDateInterval`, `FilterKeyword`, `FilterFullText`
and the combinators built by `&`, `|`, `~` in the tests).  `uid` is the
creator-or-modifier filter (`OwnerRef` in the spec), `author` the
author-equality filter, `date` the (optionally open) date interval. -/
inductive Filter where
  | tru : Filter
  | fls : Filter
  | uid (u : Int) : Filter
  | author (u : Int) : Filter
  | date (dmin dmax : Option Int) : Filter
  | keyword (term : String) : Filter
  | fulltext (query : String) : Filter
  | and (l r : Filter) : Filter
  | or (l r : Filter) : Filter
  | not (a : Filter) : Filter
deriving DecidableEq, Repr

namespace Filter

/-- Modelled from the spec: whether two filters are an `Author`/`Author`
pair — the one leaf kind subject to the `And` contradiction rule (§4.2:
the rule "applies to `Author`; does not apply to `Keyword`/`FullText`"). -/
def authorPair : Filter → Filter → Bool
  | .author _, .author _ => true
  | _, _ => false

/-- Modelled from the spec: smart `And` constructor used by the
bottom-up simplifier (§4.2): identity elements, annihilator, structural
deduplication, and the `Author`-pair contradiction rule. -/
def mkAnd (a b : Filter) : Filter :=
  if a = Filter.tru then b
  else if b = Filter.tru then a
  else if a = Filter.fls then Filter.fls
  else if b = Filter.fls then Filter.fls
  else if a = b then a
  else if authorPair a b then Filter.fls
  else Filter.and a b

/-- Modelled from the spec: smart `Or` constructor used by the
bottom-up simplifier (§4.2): identity elements, annihilator and
structural deduplication. -/
def mkOr (a b : Filter) : Filter :=
  if a = Filter.tru then Filter.tru
  else if b = Filter.tru then Filter.tru
  else if a = Filter.fls then b
  else if b = Filter.fls then a
  else if a = b then a
  else Filter.or a b

/-- Modelled from the spec: smart `Not` constructor used by the
bottom-up simplifier (§4.2): constant negation and double-negation
elimination. -/
def mkNot : Filter → Filter
  | .tru => Filter.fls
  | .fls => Filter.tru
  | .not x => x
  | a => Filter.not a

/-- Modelled from the spec: `Filter.simplify` of
`tivua.database_filters` (§4.2) — one bottom-up pass applying the
algebraic rewrite rules, including `DateRange(None, None) = True`. -/
def simplify : Filter → Filter
  | .tru => Filter.tru
  | .fls => Filter.fls
  | .uid u => Filter.uid u
  | .author u => Filter.author u
  | .date none none => Filter.tru
  | .date (some a) b => Filter.date (some a) b
  | .date none (some b) => Filter.date none (some b)
  | .keyword t => Filter.keyword t
  | .fulltext q => Filter.fulltext q
  | .and l r => mkAnd (simplify l) (simplify r)
  | .or l r => mkOr (simplify l) (simplify r)
  | .not a => mkNot (simplify a)

/-- Whether a filter is a `Not` node. -/
def isNotNode : Filter → Bool
  | .not _ => true
  | _ => false

/-- Characterisation of the simplifier's normal forms: no rewrite rule
of §4.2 applies anywhere in the tree. -/
def isSimp : Filter → Bool
  | .tru => true
  | .fls => true
  | .uid _ => true
  | .author _ => true
  | .date none none => false
  | .date (some _) _ => true
  | .date none (some _) => true
  | .keyword _ => true
  | .fulltext _ => true
  | .and l r =>
    isSimp l && isSimp r &&
    decide (l ≠ Filter.tru) && decide (r ≠ Filter.tru) &&
    decide (l ≠ Filter.fls) && decide (r ≠ Filter.fls) &&
    decide (l ≠ r) && !authorPair l r
  | .or l r =>
    isSimp l && isSimp r &&
    decide (l ≠ Filter.tru) && decide (r ≠ Filter.tru) &&
    decide (l ≠ Filter.fls) && decide (r ≠ Filter.fls) &&
    decide (l ≠ r)
  | .not a =>
    isSimp a && decide (a ≠ Filter.tru) && decide (a ≠ Filter.fls) && !isNotNode a

end Filter

/-- Modelled from the spec: the kind of an auxiliary join added by the
compiler (§4.3): `keyword` joins the `keywords` table, `fulltext` the
full-text index. -/
inductive JoinKind where
  | keyword : JoinKind
  | fulltext : JoinKind
deriving DecidableEq, Repr

/-- Modelled from the spec: a bound SQL parameter (§4.3) — integers for
uids/dates, strings for keyword terms and full-text match strings. -/
inductive Param where
  | int (i : Int) : Param
  | str (s : String) : Param
deriving DecidableEq, Repr

/-- Modelled from the spec: the WHERE expression produced by the
compiler (§4.3).  Join conditions reference their join by its position
in the fragment's join list; isolated independent queries are carried
as their already-emitted SQL text plus bound parameters. -/
inductive Cond where
  | tt : Cond
  | ff : Cond
  | authorEq (u : Int) : Cond
  | uidEq (u : Int) : Cond
  | dateGe (d : Int) : Cond
  | dateLe (d : Int) : Cond
  | keywordEq (j : Nat) (term : String) : Cond
  | ftMatch (j : Nat) (query : String) : Cond
  | inQuery (sql : String) (params : List Param) : Cond
  | andE (l r : Cond) : Cond
  | orE (l r : Cond) : Cond
  | notE (c : Cond) : Cond
deriving DecidableEq, Repr

/-- Decimal digit character. -/
def digitChar (n : Nat) : Char := Char.ofNat (48 + n)

/-- Decimal digit list of a natural number, most significant first;
structural recursion on a fuel bound so that it reduces inside the
kernel.  Any fuel above the value itself yields the digits. -/
def natDigits : Nat → Nat → List Char
  | 0, _ => []
  | fuel + 1, n =>
    if n < 10 then [digitChar n]
    else natDigits fuel (n / 10) ++ [digitChar (n % 10)]

/-- Decimal rendering of a natural number, used for join-alias
ordinals (`k1`, `k2`, …). -/
def natStr (n : Nat) : String :=
  String.mk (natDigits (n + 1) n)

/-- The single-letter alias stem of a join kind (§3 AliasAllocator). -/
def JoinKind.letter : JoinKind → String
  | .keyword => "k"
  | .fulltext => "f"

/-- The first character of a join kind's alias stem. -/
def JoinKind.letterChar : JoinKind → Char
  | .keyword => 'k'
  | .fulltext => 'f'

/-- Modelled from the spec: the alias given to the `j`-th join of a
fragment (§3 AliasAllocator, §8 scenario 3): a kind occurring exactly
once in the query uses the bare letter (`k`, `f`); a kind occurring
several times numbers its occurrences `k1`, `k2`, … in join order. -/
def aliasFor (js : List JoinKind) (j : Nat) : String :=
  match js.get? j with
  | none => ""
  | some k =>
    if js.count k = 1 then k.letter
    else k.letter ++ natStr ((js.take j).count k + 1)

/-- Modelled from the spec: the SQL text of the `j`-th join (§4.3 —
keyword joins on post id, full-text joins on the index rowid).  Join
tables are *not* subject to the history-mode table substitution. -/
def joinClause (js : List JoinKind) (j : Nat) : String :=
  let a := aliasFor js j
  match js.get? j with
  | some .keyword => " JOIN keywords AS " ++ a ++ " ON (" ++ a ++ ".pid = p.pid)"
  | some .fulltext => " JOIN fulltext AS " ++ a ++ " ON (" ++ a ++ ".rowid = p.pid)"
  | none => ""

/-- Concatenation of a list of strings. -/
def concatAll : List String → String
  | [] => ""
  | s :: rest => s ++ concatAll rest

/-- All join clauses of a fragment, in join order. -/
def joinsClause (js : List JoinKind) : String :=
  concatAll ((List.range js.length).map (joinClause js))

/-- Modelled from the spec: rendering of a WHERE expression to SQL text
plus its bound parameters, in left-to-right order (§4.3 leaf
compilation; `OwnerRef` binds the uid twice). -/
def renderCond (js : List JoinKind) : Cond → String × List Param
  | .tt => ("TRUE", [])
  | .ff => ("FALSE", [])
  | .authorEq u => ("(p.author = ?)", [Param.int u])
  | .uidEq u => ("((p.cuid = ?) OR (p.muid = ?))", [Param.int u, Param.int u])
  | .dateGe d => ("(p.date >= ?)", [Param.int d])
  | .dateLe d => ("(p.date <= ?)", [Param.int d])
  | .keywordEq j t => ("(" ++ aliasFor js j ++ ".keyword = ?)", [Param.str t])
  | .ftMatch j q => ("(" ++ aliasFor js j ++ ".content MATCH ?)", [Param.str q])
  | .inQuery sql ps => ("(p.pid IN (" ++ sql ++ "))", ps)
  | .andE l r =>
    let wl := renderCond js l
    let wr := renderCond js r
    ("(" ++ wl.1 ++ " AND " ++ wr.1 ++ ")", wl.2 ++ wr.2)
  | .orE l r =>
    let wl := renderCond js l
    let wr := renderCond js r
    ("(" ++ wl.1 ++ " OR " ++ wr.1 ++ ")", wl.2 ++ wr.2)
  | .notE c =>
    let w := renderCond js c
    ("(NOT " ++ w.1 ++ ")", w.2)

/-- The projection part of the SELECT clause. -/
def projClause (cols : List String) : String :=
  String.intercalate ", " (cols.map (fun c => "p." ++ c))

/-- Modelled from the spec: the emitter (§4.4).  Applies the
history-mode substitution to the base table (only), renders the joins,
omits WHERE when the expression is trivially true and omits GROUP BY
when no join was added. -/
def emitQuery (tbl : String) (subs : List (String × String)) (cols : List String)
    (js : List JoinKind) (c : Cond) : String × List Param :=
  let t := (List.lookup tbl subs).getD tbl
  let w := renderCond js c
  ("SELECT " ++ projClause cols ++ " FROM " ++ t ++ " AS p" ++ joinsClause js
     ++ (if c = Cond.tt then "" else " WHERE " ++ w.1)
     ++ (if js.isEmpty then "" else " GROUP BY p.pid"),
   w.2)

/-- Modelled from the spec: conjunction of two compiled WHERE parts; a
trivially-true part is dropped (§4.4 "omitting WHERE when the
expression is trivially true", and the no-op filter tests). -/
def mkAndCond (a b : Cond) : Cond :=
  if a = Cond.tt then b else if b = Cond.tt then a else Cond.andE a b

/-- Modelled from the spec: disjunction of two compiled WHERE parts; a
trivially-true part is dropped (matching the no-op filter behaviour of
`tivua/tests/test_database_filters.py`). -/
def mkOrCond (a b : Cond) : Cond :=
  if a = Cond.tt then b else if b = Cond.tt then a else Cond.orE a b

/-- Modelled from the spec: whether a subtree contains a join-based
leaf (`Keyword` or `FullText`), §4.3's classification. -/
def containsJoin : Filter → Bool
  | .keyword _ => true
  | .fulltext _ => true
  | .and l r => containsJoin l || containsJoin r
  | .or l r => containsJoin l || containsJoin r
  | .not a => containsJoin a
  | _ => false

/-- Whether a filter is a `FullText` leaf. -/
def isFTLeaf : Filter → Bool
  | .fulltext _ => true
  | _ => false

/-- The raw query text of a `FullText` leaf (`""` otherwise). -/
def ftRaw : Filter → String
  | .fulltext s => s
  | _ => ""

/-- Modelled from the spec: full-text query preparation (§4.3) — the
query text has quote/apostrophe characters stripped and is wrapped as a
phrase term before binding. -/
def ftPhrase (s : String) : String :=
  "\"" ++ String.mk (s.toList.filter (fun c => !(c == '"' || c == '\''))) ++ "\""

/-- Modelled from the spec: the recursive-descent compiler core (§4.3).
Walks the filter, threading the join list of the enclosing query;
returns the grown join list and the WHERE expression.  `And` compiles
both sides inline; `Or` merges two `FullText` leaves into one join,
isolates every join-based side as an independent query referenced via
`pid IN (...)`, and keeps row-local sides inline; `Not` isolates its
operand exactly when it contains a join-based leaf. -/
def cmp (tbl : String) (subs : List (String × String)) :
    Filter → List JoinKind → List JoinKind × Cond
  | .tru, js => (js, Cond.tt)
  | .fls, js => (js, Cond.ff)
  | .author u, js => (js, Cond.authorEq u)
  | .uid u, js => (js, Cond.uidEq u)
  | .date dmin dmax, js =>
    (js, match dmin, dmax with
      | none, none => Cond.tt
      | some a, none => Cond.dateGe a
      | none, some b => Cond.dateLe b
      | some a, some b => Cond.andE (Cond.dateGe a) (Cond.dateLe b))
  | .keyword t, js => (js ++ [JoinKind.keyword], Cond.keywordEq js.length t)
  | .fulltext q, js => (js ++ [JoinKind.fulltext], Cond.ftMatch js.length (ftPhrase q))
  | .and l r, js =>
    let p1 := cmp tbl subs l js
    let p2 := cmp tbl subs r p1.1
    (p2.1, mkAndCond p1.2 p2.2)
  | .or l r, js =>
    if isFTLeaf l && isFTLeaf r then
      (js ++ [JoinKind.fulltext],
       Cond.ftMatch js.length ("(" ++ ftPhrase (ftRaw l) ++ " OR " ++ ftPhrase (ftRaw r) ++ ")"))
    else if containsJoin l || containsJoin r then
      let c1 :=
        if containsJoin l then
          let q := cmp tbl subs l []
          let e := emitQuery tbl subs ["pid"] q.1 q.2
          Cond.inQuery e.1 e.2
        else (cmp tbl subs l js).2
      let c2 :=
        if containsJoin r then
          let q := cmp tbl subs r []
          let e := emitQuery tbl subs ["pid"] q.1 q.2
          Cond.inQuery e.1 e.2
        else (cmp tbl subs r js).2
      (js, mkOrCond c1 c2)
    else
      let p1 := cmp tbl subs l js
      let p2 := cmp tbl subs r p1.1
      (p2.1, mkOrCond p1.2 p2.2)
  | .not a, js =>
    if containsJoin a then
      let q := cmp tbl subs a []
      let e := emitQuery tbl subs ["pid"] q.1 q.2
      (js, Cond.notE (Cond.inQuery e.1 e.2))
    else
      let p := cmp tbl subs a js
      (p.1, Cond.notE p.2)

/-- Modelled from the spec: the `CompiledFragment` record (§3) —
joins, WHERE expression, de-duplication flag, plus the base table and
table substitutions the emitter needs. -/
structure Fragment where
  table : String
  subs : List (String × String)
  joins : List JoinKind
  cond : Cond
  needsGroupBy : Bool
deriving DecidableEq, Repr

/-- Modelled from the spec: `Filter.compile(table="posts",
table_subs=None)` (§4.3 contract, default base table per
`tivua/tests/test_database_filters.py`).  `needs_group_by` is set
exactly when at least one join was added inline. -/
def Filter.compile (f : Filter) (tbl : String := "posts")
    (subs : List (String × String) := []) : Fragment :=
  let p := cmp tbl subs f []
  ⟨tbl, subs, p.1, p.2, !p.1.isEmpty⟩

/-- Modelled from the spec: `CompiledFragment.emit(columns)` (§4.4). -/
def Fragment.emit (fr : Fragment) (cols : List String) : String × List Param :=
  emitQuery fr.table fr.subs cols fr.joins fr.cond

/-- Whether a WHERE expression is an isolation membership test
(`pid IN (...)`). -/
def isInQ : Cond → Bool
  | .inQuery _ _ => true
  | _ => false

/-- Whether a WHERE expression contains an isolation subquery anywhere. -/
def condNoInQ : Cond → Bool
  | .inQuery _ _ => false
  | .andE l r => condNoInQ l && condNoInQ r
  | .orE l r => condNoInQ l && condNoInQ r
  | .notE c => condNoInQ c
  | _ => true

/-- Every isolation subquery inside a WHERE expression selects from the
(substituted) base table `t`: its SQL text begins
`SELECT p.pid FROM <t> AS p`. -/
def CondSubsOK (t : String) : Cond → Prop
  | .inQuery sql _ => ∃ r, sql = "SELECT p.pid FROM " ++ t ++ " AS p" ++ r
  | .andE l r => CondSubsOK t l ∧ CondSubsOK t r
  | .orE l r => CondSubsOK t l ∧ CondSubsOK t r
  | .notE c => CondSubsOK t c
  | _ => True

/-- The WHERE expression an `Or` side contributes (§4.3): a side
containing a join-based leaf is compiled as an independent query over a
fresh join list and referenced as a `pid IN (...)` membership test; a
row-local side is compiled inline. -/
def orSideCond (tbl : String) (subs : List (String × String)) (js : List JoinKind)
    (x : Filter) : Cond :=
  if containsJoin x then
    let q := cmp tbl subs x []
    let e := emitQuery tbl subs ["pid"] q.1 q.2
    Cond.inQuery e.1 e.2
  else (cmp tbl subs x js).2

/-- An `And`-chain consisting solely of join-based leaves. -/
def andChainJoin : Filter → Bool
  | .keyword _ => true
  | .fulltext _ => true
  | .and l r => andChainJoin l && andChainJoin r
  | _ => false

/-- The join kinds of the leaves of an `And`-chain, left to right. -/
def chainKinds : Filter → List JoinKind
  | .keyword _ => [JoinKind.keyword]
  | .fulltext _ => [JoinKind.fulltext]
  | .and l r => chainKinds l ++ chainKinds r
  | _ => []

/-- Decimal value of a digit list (left inverse of `natDigits`). -/
def digitsVal (l : List Char) : Nat :=
  l.foldl (fun acc c => acc * 10 + (c.toNat - 48)) 0

/-- Modelled from the spec: a scalar field value of the JSON-like wire
representation (§6): absent, null, integer, string or boolean. -/
inductive WVal where
  | missing : WVal
  | wnull : WVal
  | wint (i : Int) : WVal
  | wstr (s : String) : WVal
  | wbool (b : Bool) : WVal
deriving DecidableEq, Repr

/-- Modelled from the spec: the discriminated-union wire form of a
predicate (§6): an object with a `kind` discriminator, the scalar leaf
fields the leaf kinds use (`uid`, `min`, `max`, `keyword`, `query`) and
the child slots of the combinators (`left`, `right`, `inner`); `absent`
stands for a missing child. -/
inductive Wire where
  | absent : Wire
  | node (kind : String) (uidF minF maxF keywordF queryF : WVal)
      (left right inner : Wire) : Wire
deriving DecidableEq, Repr

/-- Parse an optional integer field: absent and null mean `none`; an
integer means `some`; anything else is malformed. -/
def parseOptInt : WVal → Except String (Option Int)
  | .missing => .ok none
  | .wnull => .ok none
  | .wint i => .ok (some i)
  | _ => .error "malformed optional integer field"

/-- Parse a required integer field. -/
def parseUid : WVal → Except String Int
  | .wint i => .ok i
  | _ => .error "malformed uid field"

/-- Parse a required non-empty text field (§4.1: keyword/full-text
query are non-empty text). -/
def parseText : WVal → Except String String
  | .wstr s => if s = "" then .error "empty text field" else .ok s
  | _ => .error "malformed text field"

/-- Apply a unary constructor under `Except`. -/
def exceptMap {α : Type} (f : α → Filter) : Except String α → Except String Filter
  | .ok a => .ok (f a)
  | .error e => .error e

/-- Apply a binary constructor under `Except`. -/
def except2 (f : Filter → Filter → Filter) :
    Except String Filter → Except String Filter → Except String Filter
  | .ok a, .ok b => .ok (f a b)
  | .error e, _ => .error e
  | _, .error e => .error e

/-- Build a `date` leaf from two parsed optional bounds. -/
def dateOf : Except String (Option Int) → Except String (Option Int) →
    Except String Filter
  | .ok mn, .ok mx => .ok (Filter.date mn mx)
  | .error e, _ => .error e
  | _, .error e => .error e

/-- Modelled from the spec: `Filter.deserialize(obj)` of
`tivua.database_filters` (§6, §7): turn a wire value back into a
predicate tree, rejecting unknown `kind` discriminators and
missing/mistyped leaf fields (uid/date bounds must be integers,
keyword/full-text query must be non-empty text, combinator children
must be present and themselves deserialisable). -/
def deserialize : Wire → Except String Filter
  | .absent => .error "missing child"
  | .node kind uidF minF maxF keywordF queryF left right inner =>
    if kind = "true" then .ok Filter.tru
    else if kind = "false" then .ok Filter.fls
    else if kind = "uid" then exceptMap Filter.uid (parseUid uidF)
    else if kind = "author" then exceptMap Filter.author (parseUid uidF)
    else if kind = "date" then dateOf (parseOptInt minF) (parseOptInt maxF)
    else if kind = "keyword" then exceptMap Filter.keyword (parseText keywordF)
    else if kind = "fulltext" then exceptMap Filter.fulltext (parseText queryF)
    else if kind = "and" then except2 Filter.and (deserialize left) (deserialize right)
    else if kind = "or" then except2 Filter.or (deserialize left) (deserialize right)
    else if kind = "not" then exceptMap Filter.not (deserialize inner)
    else .error "unknown kind"

/-- An integer-typed field value. -/
def wvInt : WVal → Bool
  | .wint _ => true
  | _ => false

/-- An optional-integer-typed field value. -/
def wvOptInt : WVal → Bool
  | .missing => true
  | .wnull => true
  | .wint _ => true
  | _ => false

/-- A non-empty-text-typed field value. -/
def wvText : WVal → Bool
  | .wstr s => !(s = "")
  | _ => false

/-- Well-formedness of a wire value, following the spec's words (§6,
§7): the `kind` discriminator is one of the known node kinds and the
fields that kind requires are present and correctly typed. -/
def wireWellFormed : Wire → Bool
  | .absent => false
  | .node kind uidF minF maxF keywordF queryF left right inner =>
    if kind = "true" then true
    else if kind = "false" then true
    else if kind = "uid" then wvInt uidF
    else if kind = "author" then wvInt uidF
    else if kind = "date" then wvOptInt minF && wvOptInt maxF
    else if kind = "keyword" then wvText keywordF
    else if kind = "fulltext" then wvText queryF
    else if kind = "and" then wireWellFormed left && wireWellFormed right
    else if kind = "or" then wireWellFormed left && wireWellFormed right
    else if kind = "not" then wireWellFormed inner
    else false

/-- From `tivua/server.py`, `_api_get_posts_list`: the `filter` query
parameter, when present, is deserialised into a filter tree and
simplified; any exception raised while doing so is converted into a
`ValidationError` surfaced to the caller. -/
def apiGetPostsListFilter (q : Option Wire) : Except Unit (Option Filter) :=
  match q with
  | none => .ok none
  | some w =>
    match deserialize w with
    | .ok f => .ok (some (Filter.simplify f))
    | .error _ => .error ()

/-! ## Lemmas about the simplifier -/

namespace Filter

theorem mkNot_default (a : Filter) (h1 : a ≠ Filter.tru) (h2 : a ≠ Filter.fls)
    (h3 : isNotNode a = false) : mkNot a = Filter.not a := by
  cases a <;> simp_all [mkNot, isNotNode]

theorem isSimp_mkAnd {a b : Filter} (ha : isSimp a = true) (hb : isSimp b = true) :
    isSimp (mkAnd a b) = true := by
  unfold mkAnd
  split_ifs with h1 h2 h3 h4 h5 h6
  · exact hb
  · exact ha
  · rfl
  · rfl
  · exact ha
  · rfl
  · simp [isSimp, ha, hb, h1, h2, h3, h4, h5, h6]

theorem isSimp_mkOr {a b : Filter} (ha : isSimp a = true) (hb : isSimp b = true) :
    isSimp (mkOr a b) = true := by
  unfold mkOr
  split_ifs with h1 h2 h3 h4 h5
  · rfl
  · rfl
  · exact hb
  · exact ha
  · exact ha
  · simp [isSimp, ha, hb, h1, h2, h3, h4, h5]

theorem isSimp_mkNot {a : Filter} (ha : isSimp a = true) :
    isSimp (mkNot a) = true := by
  cases a <;> simp_all [mkNot, isSimp, isNotNode]

theorem isSimp_simplify (p : Filter) : isSimp (simplify p) = true := by
  induction p with
  | tru => rfl
  | fls => rfl
  | uid u => rfl
  | author u => rfl
  | date dmin dmax => cases dmin <;> cases dmax <;> rfl
  | keyword t => rfl
  | fulltext q => rfl
  | and l r ihl ihr => simpa [simplify] using isSimp_mkAnd ihl ihr
  | or l r ihl ihr => simpa [simplify] using isSimp_mkOr ihl ihr
  | not a ih => simpa [simplify] using isSimp_mkNot ih

theorem simplify_of_isSimp (p : Filter) (h : isSimp p = true) : simplify p = p := by
  induction p with
  | tru => rfl
  | fls => rfl
  | uid u => rfl
  | author u => rfl
  | date dmin dmax =>
    cases dmin <;> cases dmax <;> first | rfl | exact absurd h (by simp [isSimp])
  | keyword t => rfl
  | fulltext q => rfl
  | and l r ihl ihr =>
    simp only [isSimp, Bool.and_eq_true, decide_eq_true_eq, Bool.not_eq_true'] at h
    obtain ⟨⟨⟨⟨⟨⟨⟨hl, hr⟩, h1⟩, h2⟩, h3⟩, h4⟩, h5⟩, h6⟩ := h
    rw [show simplify (Filter.and l r) = mkAnd (simplify l) (simplify r) from rfl,
        ihl hl, ihr hr]
    unfold mkAnd
    rw [if_neg h1, if_neg h2, if_neg h3, if_neg h4, if_neg h5, if_neg (by simp [h6])]
  | or l r ihl ihr =>
    simp only [isSimp, Bool.and_eq_true, decide_eq_true_eq, Bool.not_eq_true'] at h
    obtain ⟨⟨⟨⟨⟨⟨hl, hr⟩, h1⟩, h2⟩, h3⟩, h4⟩, h5⟩ := h
    rw [show simplify (Filter.or l r) = mkOr (simplify l) (simplify r) from rfl,
        ihl hl, ihr hr]
    unfold mkOr
    rw [if_neg h1, if_neg h2, if_neg h3, if_neg h4, if_neg h5]
  | not a ih =>
    simp only [isSimp, Bool.and_eq_true, decide_eq_true_eq, Bool.not_eq_true'] at h
    obtain ⟨⟨⟨ha, h1⟩, h2⟩, h3⟩ := h
    rw [show simplify (Filter.not a) = mkNot (simplify a) from rfl, ih ha]
    exact mkNot_default a h1 h2 h3

end Filter

/-! ## Lemmas about decimal alias ordinals -/

theorem natDigits_fuel (n : Nat) : ∀ f1 f2, n < f1 → n < f2 →
    natDigits f1 n = natDigits f2 n := by
  induction n using Nat.strong_induction_on with
  | _ n ih =>
    intro f1 f2 h1 h2
    cases f1 with
    | zero => omega
    | succ a =>
      cases f2 with
      | zero => omega
      | succ b =>
        by_cases h : n < 10
        · simp [natDigits, h]
        · have hd : n / 10 < n := Nat.div_lt_self (by omega) (by omega)
          simp only [natDigits, h, if_false]
          rw [ih (n / 10) hd a b (by omega) (by omega)]

theorem digitsVal_append (l : List Char) (c : Char) :
    digitsVal (l ++ [c]) = digitsVal l * 10 + (c.toNat - 48) := by
  simp [digitsVal, List.foldl_append]

theorem digitChar_toNat {m : Nat} (h : m < 10) : (digitChar m).toNat = 48 + m := by
  interval_cases m <;> rfl

theorem digitsVal_natDigits (n : Nat) : digitsVal (natDigits (n + 1) n) = n := by
  induction n using Nat.strong_induction_on with
  | _ n ih =>
    by_cases h : n < 10
    · simp only [natDigits, h, if_true]
      simp [digitsVal, digitChar_toNat h]
    · have hd : n / 10 < n := Nat.div_lt_self (by omega) (by omega)
      have hfuel : natDigits (n + 1) n = natDigits n (n / 10) ++ [digitChar (n % 10)] := by
        simp [natDigits, h]
      rw [hfuel, digitsVal_append,
          natDigits_fuel (n / 10) n (n / 10 + 1) (by omega) (by omega),
          ih (n / 10) hd, digitChar_toNat (Nat.mod_lt _ (by omega))]
      omega

theorem natStr_inj {m n : Nat} (h : natStr m = natStr n) : m = n := by
  have h2 : natDigits (m + 1) m = natDigits (n + 1) n := congrArg String.data h
  have h3 := congrArg digitsVal h2
  rwa [digitsVal_natDigits, digitsVal_natDigits] at h3

theorem str_append_left_cancel {s a b : String} (h : s ++ a = s ++ b) : a = b := by
  have h2 := congrArg String.data h
  simp only [String.data_append] at h2
  exact String.ext (List.append_cancel_left h2)

/-! ## Lemmas about alias allocation -/

theorem letter_data (k : JoinKind) : (k.letter).data = [k.letterChar] := by
  cases k <;> rfl

theorem aliasFor_head {js : List JoinKind} {i : Nat} {k : JoinKind}
    (h : js.get? i = some k) : (aliasFor js i).data.head? = some k.letterChar := by
  unfold aliasFor
  rw [h]
  dsimp only
  split_ifs
  · rw [letter_data]; rfl
  · rw [String.data_append, letter_data]; rfl

theorem two_le_count {js : List JoinKind} {i j : Nat} {k : JoinKind}
    (hij : i < j) (hi : js.get? i = some k) (hj : js.get? j = some k) :
    2 ≤ js.count k := by
  have h1 : 0 < (js.take j).count k := by
    rw [List.count_pos_iff]
    exact List.get?_mem (by rw [List.get?_take hij]; exact hi)
  have h2 : 0 < (js.drop j).count k := by
    rw [List.count_pos_iff]
    have h0 : (js.drop j).get? 0 = some k := by
      rw [List.get?_drop]
      simpa using hj
    exact List.get?_mem h0
  calc 2 ≤ (js.take j).count k + (js.drop j).count k := by omega
    _ = js.count k := by rw [← List.count_append, List.take_append_drop]

theorem take_count_lt {js : List JoinKind} {i j : Nat} {k : JoinKind}
    (hij : i < j) (hi : js.get? i = some k) :
    (js.take i).count k < (js.take j).count k := by
  have htk : (js.take j).take i = js.take i := by
    rw [List.take_take]
    congr 1
    omega
  have h2 : 0 < ((js.take j).drop i).count k := by
    rw [List.count_pos_iff]
    have h0 : ((js.take j).drop i).get? 0 = some k := by
      rw [List.get?_drop]
      have he : (js.take j).get? (i + 0) = js.get? (i + 0) := List.get?_take (by omega)
      rw [he]
      simpa using hi
    exact List.get?_mem h0
  calc (js.take i).count k < (js.take i).count k + ((js.take j).drop i).count k := by omega
    _ = (js.take j).count k := by
        rw [← htk, ← List.count_append, List.take_append_drop]

theorem aliasFor_ne {js : List JoinKind} {i j : Nat} {ki kj : JoinKind}
    (hij : i < j) (hi : js.get? i = some ki) (hj : js.get? j = some kj) :
    aliasFor js i ≠ aliasFor js j := by
  intro he
  by_cases hk : ki = kj
  · subst hk
    have h2 : 2 ≤ js.count ki := two_le_count hij hi hj
    have hcount : ¬ js.count ki = 1 := by omega
    unfold aliasFor at he
    rw [hi, hj] at he
    simp only [hcount, if_false] at he
    have h3 := natStr_inj (str_append_left_cancel he)
    have h4 := take_count_lt hij hi
    omega
  · have h1 := aliasFor_head hi
    have h2 := aliasFor_head hj
    rw [he, h2] at h1
    have : kj.letterChar = ki.letterChar := by injection h1
    cases ki <;> cases kj <;> simp_all [JoinKind.letterChar]

theorem aliasFor_replicate {k : JoinKind} {n i : Nat} (hn : 2 ≤ n) (hi : i < n) :
    aliasFor (List.replicate n k) i = k.letter ++ natStr (i + 1) := by
  unfold aliasFor
  have hget : (List.replicate n k).get? i = some k := by
    simp [List.getElem?_replicate, hi]
  rw [hget]
  dsimp only
  rw [List.count_replicate_self, List.take_replicate, List.count_replicate_self]
  have hmin : min i n = i := by omega
  rw [hmin, if_neg (by omega)]

theorem aliasFor_bare {js : List JoinKind} {i : Nat} {k : JoinKind}
    (hi : js.get? i = some k) (h1 : js.count k = 1) :
    aliasFor js i = k.letter := by
  unfold aliasFor
  rw [hi]
  dsimp only
  rw [if_pos h1]

theorem aliasFor_numbered {js : List JoinKind} {i : Nat} {k : JoinKind}
    (hi : js.get? i = some k) (h2 : 2 ≤ js.count k) :
    aliasFor js i = k.letter ++ natStr ((js.take i).count k + 1) := by
  unfold aliasFor
  rw [hi]
  dsimp only
  rw [if_neg (by omega)]

theorem count_take_eq_zero_of_first {js : List JoinKind} {i : Nat} {k : JoinKind}
    (hfirst : ∀ i', i' < i → js.get? i' ≠ some k) :
    (js.take i).count k = 0 := by
  rw [List.count_eq_zero]
  intro hmem
  obtain ⟨n, hn⟩ := List.mem_iff_get?.mp hmem
  have hlen : n < (js.take i).length := (List.get?_eq_some.mp hn).fst
  have hni : n < i := lt_of_lt_of_le hlen (by simp [List.length_take])
  exact hfirst n hni (by rw [← List.get?_take hni]; exact hn)

theorem count_take_succ_self {js : List JoinKind} {i : Nat} {k : JoinKind}
    (hi : js.get? i = some k) :
    (js.take (i + 1)).count k = (js.take i).count k + 1 := by
  rw [List.take_succ, show js[i]? = js.get? i from (List.get?_eq_getElem? js i).symm, hi]
  rw [List.count_append]
  simp

theorem count_take_between {js : List JoinKind} {i j : Nat} {k : JoinKind}
    (hij : i < j) (hi : js.get? i = some k)
    (hmid : ∀ m, i < m → m < j → js.get? m ≠ some k) :
    (js.take j).count k = (js.take i).count k + 1 := by
  have h1 : js.take j = js.take (i + 1) ++ ((js.take j).drop (i + 1)) := by
    conv_lhs => rw [← List.take_append_drop (i + 1) (js.take j)]
    rw [List.take_take, Nat.min_eq_left hij]
  rw [h1, List.count_append, count_take_succ_self hi]
  suffices h0 : ((js.take j).drop (i + 1)).count k = 0 by omega
  rw [List.count_eq_zero]
  intro hmem
  obtain ⟨n, hn⟩ := List.mem_iff_get?.mp hmem
  rw [List.get?_drop] at hn
  have hlt : i + 1 + n < (js.take j).length := (List.get?_eq_some.mp hn).fst
  have hjlt : i + 1 + n < j := lt_of_lt_of_le hlt (by simp [List.length_take])
  have hk : js.get? (i + 1 + n) = some k := by
    rw [← List.get?_take hjlt]
    exact hn
  exact hmid (i + 1 + n) (by omega) hjlt hk

/-! ## Lemmas about the compiler's isolation discipline -/

theorem condNoInQ_mkAndCond {a b : Cond} (ha : condNoInQ a = true)
    (hb : condNoInQ b = true) : condNoInQ (mkAndCond a b) = true := by
  unfold mkAndCond
  split_ifs <;> simp [condNoInQ, ha, hb]

theorem condNoInQ_mkOrCond {a b : Cond} (ha : condNoInQ a = true)
    (hb : condNoInQ b = true) : condNoInQ (mkOrCond a b) = true := by
  unfold mkOrCond
  split_ifs <;> simp [condNoInQ, ha, hb]

theorem containsJoin_of_isFTLeaf {x : Filter} (h : isFTLeaf x = true) :
    containsJoin x = true := by
  cases x <;> simp_all [isFTLeaf, containsJoin]

/-- A row-local subtree (no join-based leaf) is never isolated: its
compiled WHERE expression contains no `pid IN (...)` subquery,
regardless of its position. -/
theorem cmp_rowLocal_noInQ (tbl : String) (subs : List (String × String)) :
    ∀ f : Filter, containsJoin f = false →
      ∀ js, condNoInQ ((cmp tbl subs f js).2) = true := by
  intro f
  induction f with
  | tru => intro _ js; rfl
  | fls => intro _ js; rfl
  | uid u => intro _ js; rfl
  | author u => intro _ js; rfl
  | date dmin dmax =>
    intro _ js
    cases dmin <;> cases dmax <;> rfl
  | keyword t => intro h js; simp [containsJoin] at h
  | fulltext q => intro h js; simp [containsJoin] at h
  | and l r ihl ihr =>
    intro h js
    simp only [containsJoin, Bool.or_eq_false_iff] at h
    exact condNoInQ_mkAndCond (ihl h.1 js) (ihr h.2 _)
  | or l r ihl ihr =>
    intro h js
    simp only [containsJoin, Bool.or_eq_false_iff] at h
    have hft : (isFTLeaf l && isFTLeaf r) = false := by
      cases hl : isFTLeaf l
      · simp
      · exact absurd (containsJoin_of_isFTLeaf hl) (by simp [h.1])
    have hcj : (containsJoin l || containsJoin r) = false := by
      simp [h.1, h.2]
    simp only [cmp, hft, hcj, Bool.false_eq_true, if_false]
    exact condNoInQ_mkOrCond (ihl h.1 js) (ihr h.2 _)
  | not a ih =>
    intro h js
    simp only [containsJoin] at h
    simp only [cmp, h, Bool.false_eq_true, if_false]
    exact ih h js

/-- `And`-chains of join-based leaves compile inline: the join list
grows by exactly the chain's leaves, in order, and no operand is
wrapped in a subquery. -/
theorem cmp_andChain (tbl : String) (subs : List (String × String)) :
    ∀ f : Filter, andChainJoin f = true →
      ∀ js, (cmp tbl subs f js).1 = js ++ chainKinds f ∧
        condNoInQ ((cmp tbl subs f js).2) = true := by
  intro f
  induction f with
  | tru => intro h _; simp [andChainJoin] at h
  | fls => intro h _; simp [andChainJoin] at h
  | uid u => intro h _; simp [andChainJoin] at h
  | author u => intro h _; simp [andChainJoin] at h
  | date dmin dmax => intro h _; simp [andChainJoin] at h
  | keyword t => intro _ js; exact ⟨rfl, rfl⟩
  | fulltext q => intro _ js; exact ⟨rfl, rfl⟩
  | and l r ihl ihr =>
    intro h js
    simp only [andChainJoin, Bool.and_eq_true] at h
    obtain ⟨hjl, hcl⟩ := ihl h.1 js
    obtain ⟨hjr, hcr⟩ := ihr h.2 (cmp tbl subs l js).1
    refine ⟨?_, ?_⟩
    · show (cmp tbl subs r (cmp tbl subs l js).1).1 = js ++ chainKinds (Filter.and l r)
      rw [hjr, hjl, chainKinds, List.append_assoc]
    · exact condNoInQ_mkAndCond hcl hcr
  | or l r ihl ihr => intro h _; simp [andChainJoin] at h
  | not a ih => intro h _; simp [andChainJoin] at h

/-! ## String toolkit for the emitter lemmas -/

theorem toList_append (a b : String) : (a ++ b).toList = a.toList ++ b.toList :=
  String.data_append a b

theorem toList_empty_str : ("" : String).toList = [] := rfl

theorem getLast_append_lit (a b : String) (hb : b.toList ≠ []) :
    (a ++ b).toList.getLast? = b.toList.getLast? := by
  rw [toList_append]
  exact List.getLast?_append_of_ne_nil _ hb

theorem getLast_append_empty (a : String) :
    (a ++ "").toList.getLast? = a.toList.getLast? := by
  rw [toList_append, toList_empty_str, List.append_nil]

theorem suffix_getLast {l1 l2 : List Char} (h : l1 <:+ l2) (hne : l1 ≠ []) :
    l2.getLast? = l1.getLast? := by
  obtain ⟨t, rfl⟩ := h
  exact List.getLast?_append_of_ne_nil _ hne

theorem ne_W_of_mem_lit {s : String} (hs : 'W' ∉ s.toList) {c : Char}
    (h : c ∈ s.toList) : c ≠ 'W' := fun he => hs (he ▸ h)

theorem no_W_no_WHERE {l : List Char} (h : ∀ c ∈ l, c ≠ 'W') :
    ¬ (" WHERE ".toList <:+: l) := by
  intro hinf
  exact h 'W' (hinf.subset (by decide)) rfl

/-- Every rendered WHERE expression ends in `)` or in `E` (the latter
for the bare `TRUE`/`FALSE` literals). -/
theorem renderCond_last (js : List JoinKind) (c : Cond) :
    (renderCond js c).1.toList.getLast? = some ')' ∨
    (renderCond js c).1.toList.getLast? = some 'E' := by
  cases c with
  | tt => right; show ("TRUE" : String).toList.getLast? = some 'E'; decide
  | ff => right; show ("FALSE" : String).toList.getLast? = some 'E'; decide
  | authorEq u => left; show ("(p.author = ?)" : String).toList.getLast? = some ')'; decide
  | uidEq u =>
    left; show ("((p.cuid = ?) OR (p.muid = ?))" : String).toList.getLast? = some ')'; decide
  | dateGe d => left; show ("(p.date >= ?)" : String).toList.getLast? = some ')'; decide
  | dateLe d => left; show ("(p.date <= ?)" : String).toList.getLast? = some ')'; decide
  | keywordEq j t =>
    left
    show ("(" ++ aliasFor js j ++ ".keyword = ?)").toList.getLast? = some ')'
    rw [getLast_append_lit _ _ (by decide)]
    decide
  | ftMatch j q =>
    left
    show ("(" ++ aliasFor js j ++ ".content MATCH ?)").toList.getLast? = some ')'
    rw [getLast_append_lit _ _ (by decide)]
    decide
  | inQuery sql ps =>
    left
    show ("(p.pid IN (" ++ sql ++ "))").toList.getLast? = some ')'
    rw [getLast_append_lit _ _ (by decide)]
    decide
  | andE l r =>
    left
    show ("(" ++ (renderCond js l).1 ++ " AND " ++ (renderCond js r).1 ++ ")").toList.getLast?
      = some ')'
    rw [getLast_append_lit _ _ (by decide)]
    decide
  | orE l r =>
    left
    show ("(" ++ (renderCond js l).1 ++ " OR " ++ (renderCond js r).1 ++ ")").toList.getLast?
      = some ')'
    rw [getLast_append_lit _ _ (by decide)]
    decide
  | notE c =>
    left
    show ("(NOT " ++ (renderCond js c).1 ++ ")").toList.getLast? = some ')'
    rw [getLast_append_lit _ _ (by decide)]
    decide

theorem renderCond_ne_nil (js : List JoinKind) (c : Cond) :
    (renderCond js c).1.toList ≠ [] := by
  intro he
  rcases renderCond_last js c with h | h <;> rw [he] at h <;> cases h

theorem mem_natDigits {c : Char} : ∀ {fuel n : Nat}, c ∈ natDigits fuel n →
    ∃ m, m < 10 ∧ c = digitChar m := by
  intro fuel
  induction fuel with
  | zero => intro n h; simp [natDigits] at h
  | succ f ih =>
    intro n h
    by_cases hn : n < 10
    · simp [natDigits, hn] at h
      exact ⟨n, hn, h⟩
    · simp only [natDigits, hn, if_false, List.mem_append, List.mem_singleton] at h
      rcases h with h | h
      · exact ih h
      · exact ⟨n % 10, Nat.mod_lt _ (by omega), h⟩

theorem digitChar_ne_W {m : Nat} (hm : m < 10) : digitChar m ≠ 'W' := by
  interval_cases m <;> decide

theorem mem_alias_ne_W {js : List JoinKind} {j : Nat} {c : Char}
    (h : c ∈ (aliasFor js j).toList) : c ≠ 'W' := by
  unfold aliasFor at h
  cases hg : js.get? j with
  | none => rw [hg] at h; cases h
  | some k =>
    rw [hg] at h
    dsimp only at h
    split_ifs at h
    · cases k <;> simp_all [JoinKind.letter] <;> subst h <;> decide
    · rw [toList_append] at h
      rcases List.mem_append.mp h with h | h
      · cases k <;> simp_all [JoinKind.letter] <;> subst h <;> decide
      · obtain ⟨m, hm, rfl⟩ := mem_natDigits h
        exact digitChar_ne_W hm

theorem mem_joinClause_ne_W {js : List JoinKind} {j : Nat} {c : Char}
    (h : c ∈ (joinClause js j).toList) : c ≠ 'W' := by
  unfold joinClause at h
  cases hg : js.get? j with
  | none => rw [hg] at h; cases h
  | some k =>
    rw [hg] at h
    cases k <;> dsimp only at h <;>
      rw [toList_append, toList_append, toList_append, toList_append] at h <;>
      repeat' rcases List.mem_append.mp h with h | h
    all_goals first
      | exact mem_alias_ne_W h
      | exact ne_W_of_mem_lit (by decide) h

theorem mem_concatAll {l : List String} {c : Char}
    (h : c ∈ (concatAll l).toList) : ∃ s ∈ l, c ∈ s.toList := by
  induction l with
  | nil => cases h
  | cons s rest ih =>
    rw [show concatAll (s :: rest) = s ++ concatAll rest from rfl, toList_append] at h
    rcases List.mem_append.mp h with h | h
    · exact ⟨s, List.mem_cons_self .., h⟩
    · obtain ⟨u, hu, hc⟩ := ih h
      exact ⟨u, List.mem_cons_of_mem _ hu, hc⟩

theorem mem_joinsClause_ne_W {js : List JoinKind} {c : Char}
    (h : c ∈ (joinsClause js).toList) : c ≠ 'W' := by
  obtain ⟨s, hs, hc⟩ := mem_concatAll h
  obtain ⟨j, _, rfl⟩ := List.mem_map.mp hs
  exact mem_joinClause_ne_W hc

/-- The emitted query text carries its own `GROUP BY p.pid` clause
exactly when the fragment has joins, and carries a `WHERE` clause
exactly when the WHERE expression is not trivially true (for a base
table whose substituted name contains no `W`, as `posts` and
`posts_history` do). -/
theorem emitQuery_props (tbl : String) (subs : List (String × String))
    (js : List JoinKind) (c : Cond)
    (hT : ∀ ch ∈ ((List.lookup tbl subs).getD tbl).toList, ch ≠ 'W') :
    ((" GROUP BY p.pid").toList <:+ ((emitQuery tbl subs ["pid"] js c).1).toList ↔ js ≠ []) ∧
    (c = Cond.tt → ¬ (" WHERE ".toList <:+: ((emitQuery tbl subs ["pid"] js c).1).toList)) ∧
    (c ≠ Cond.tt → " WHERE ".toList <:+: ((emitQuery tbl subs ["pid"] js c).1).toList) := by
  have hsql : (emitQuery tbl subs ["pid"] js c).1
      = "SELECT " ++ projClause ["pid"] ++ " FROM " ++ ((List.lookup tbl subs).getD tbl)
        ++ " AS p" ++ joinsClause js
        ++ (if c = Cond.tt then "" else " WHERE " ++ (renderCond js c).1)
        ++ (if js.isEmpty then "" else " GROUP BY p.pid") := rfl
  refine ⟨⟨?_, ?_⟩, ?_, ?_⟩
  · -- suffix → joins nonempty
    intro hsuf hjs
    subst hjs
    rw [hsql] at hsuf
    have hd : (("SELECT " ++ projClause ["pid"] ++ " FROM "
        ++ ((List.lookup tbl subs).getD tbl) ++ " AS p" ++ joinsClause ([] : List JoinKind)
        ++ (if c = Cond.tt then "" else " WHERE " ++ (renderCond ([] : List JoinKind) c).1)
        ++ (if ([] : List JoinKind).isEmpty then "" else " GROUP BY p.pid")) : String).toList.getLast?
        = some 'd' := by
      rw [suffix_getLast hsuf (by decide)]
      decide
    rw [show (if ([] : List JoinKind).isEmpty then "" else " GROUP BY p.pid") = "" from rfl,
        getLast_append_empty] at hd
    by_cases hc : c = Cond.tt
    · rw [if_pos hc, getLast_append_empty,
          show joinsClause ([] : List JoinKind) = "" from rfl,
          getLast_append_empty,
          getLast_append_lit _ " AS p" (by decide)] at hd
      exact absurd hd (by decide)
    · rw [if_neg hc,
          getLast_append_lit _ (" WHERE " ++ (renderCond ([] : List JoinKind) c).1)
            (by rw [toList_append]; simp),
          getLast_append_lit " WHERE " _ (renderCond_ne_nil _ c)] at hd
      rcases renderCond_last ([] : List JoinKind) c with h | h <;> rw [hd] at h <;> cases h
  · -- joins nonempty → suffix
    intro hjs
    rw [hsql]
    have hg : (if js.isEmpty then "" else " GROUP BY p.pid") = " GROUP BY p.pid" := by
      rw [if_neg]
      cases js
      · exact absurd rfl hjs
      · simp
    rw [hg, toList_append]
    exact List.suffix_append _ _
  · -- trivially-true WHERE expression: WHERE clause omitted
    intro hc
    rw [hsql, if_pos hc]
    apply no_W_no_WHERE
    intro ch hch
    simp only [toList_append, List.mem_append] at hch
    rcases hch with ((((((h | h) | h) | h) | h) | h) | h) | h
    · exact ne_W_of_mem_lit (by decide) h
    · exact ne_W_of_mem_lit (by decide) h
    · exact ne_W_of_mem_lit (by decide) h
    · exact hT ch h
    · exact ne_W_of_mem_lit (by decide) h
    · exact mem_joinsClause_ne_W h
    · rw [toList_empty_str] at h; cases h
    · intro he
      subst he
      revert h
      split_ifs
      · intro h; rw [toList_empty_str] at h; cases h
      · intro h; exact ne_W_of_mem_lit (by decide) h rfl
  · -- non-trivial WHERE expression: WHERE clause present
    intro hc
    rw [hsql, if_neg hc]
    refine ⟨("SELECT " ++ projClause ["pid"] ++ " FROM "
        ++ ((List.lookup tbl subs).getD tbl) ++ " AS p" ++ joinsClause js).toList,
      ((renderCond js c).1).toList
        ++ (if js.isEmpty then "" else " GROUP BY p.pid").toList, ?_⟩
    simp [toList_append, List.append_assoc]

/-! ## Lemmas about the history-mode table substitution -/

theorem emit_pid_shape (tbl : String) (subs : List (String × String))
    (js : List JoinKind) (c : Cond) :
    ∃ r, (emitQuery tbl subs ["pid"] js c).1
      = "SELECT p.pid FROM " ++ ((List.lookup tbl subs).getD tbl) ++ " AS p" ++ r := by
  refine ⟨joinsClause js
      ++ ((if c = Cond.tt then "" else " WHERE " ++ (renderCond js c).1)
        ++ (if js.isEmpty then "" else " GROUP BY p.pid")), ?_⟩
  show "SELECT " ++ projClause ["pid"] ++ " FROM " ++ ((List.lookup tbl subs).getD tbl)
      ++ " AS p" ++ joinsClause js
      ++ (if c = Cond.tt then "" else " WHERE " ++ (renderCond js c).1)
      ++ (if js.isEmpty then "" else " GROUP BY p.pid") = _
  have hlit : "SELECT " ++ projClause ["pid"] ++ " FROM " = "SELECT p.pid FROM " := by decide
  rw [hlit]
  simp [String.append_assoc]

theorem condSubsOK_mkAndCond {t : String} {a b : Cond} (ha : CondSubsOK t a)
    (hb : CondSubsOK t b) : CondSubsOK t (mkAndCond a b) := by
  unfold mkAndCond
  split_ifs <;> first | exact hb | exact ha | exact ⟨ha, hb⟩

theorem condSubsOK_mkOrCond {t : String} {a b : Cond} (ha : CondSubsOK t a)
    (hb : CondSubsOK t b) : CondSubsOK t (mkOrCond a b) := by
  unfold mkOrCond
  split_ifs <;> first | exact hb | exact ha | exact ⟨ha, hb⟩

/-- The join list produced by the compiler does not depend on the table
substitutions (only the base-table references inside emitted SQL do). -/
theorem cmp_joins_subs (tbl : String) (subs subs' : List (String × String)) :
    ∀ f : Filter, ∀ js, (cmp tbl subs f js).1 = (cmp tbl subs' f js).1 := by
  intro f
  induction f with
  | tru => intro js; rfl
  | fls => intro js; rfl
  | uid u => intro js; rfl
  | author u => intro js; rfl
  | date dmin dmax => intro js; cases dmin <;> cases dmax <;> rfl
  | keyword t => intro js; rfl
  | fulltext q => intro js; rfl
  | and l r ihl ihr =>
    intro js
    show (cmp tbl subs r (cmp tbl subs l js).1).1
      = (cmp tbl subs' r (cmp tbl subs' l js).1).1
    rw [ihl js]
    exact ihr _
  | or l r ihl ihr =>
    intro js
    by_cases hft : (isFTLeaf l && isFTLeaf r) = true
    · simp only [cmp, hft, if_true]
    · rw [Bool.not_eq_true] at hft
      by_cases hcj : (containsJoin l || containsJoin r) = true
      · simp only [cmp, hft, Bool.false_eq_true, if_false, hcj, if_true]
      · rw [Bool.not_eq_true] at hcj
        simp only [cmp, hft, hcj, Bool.false_eq_true, if_false]
        show (cmp tbl subs r (cmp tbl subs l js).1).1
          = (cmp tbl subs' r (cmp tbl subs' l js).1).1
        rw [ihl js]
        exact ihr _
  | not a ih =>
    intro js
    by_cases hcj : containsJoin a = true
    · simp only [cmp, hcj, if_true]
    · rw [Bool.not_eq_true] at hcj
      simp only [cmp, hcj, Bool.false_eq_true, if_false]
      show (cmp tbl subs a js).1 = (cmp tbl subs' a js).1
      exact ih js

/-- Every isolation subquery generated anywhere during compilation
selects from the substituted base table. -/
theorem cmp_cond_subsOK (tbl : String) (subs : List (String × String)) :
    ∀ f : Filter, ∀ js,
      CondSubsOK ((List.lookup tbl subs).getD tbl) ((cmp tbl subs f js).2) := by
  intro f
  induction f with
  | tru => intro js; trivial
  | fls => intro js; trivial
  | uid u => intro js; trivial
  | author u => intro js; trivial
  | date dmin dmax =>
    intro js
    cases dmin <;> cases dmax <;> simp [CondSubsOK, cmp]
  | keyword t => intro js; trivial
  | fulltext q => intro js; trivial
  | and l r ihl ihr =>
    intro js
    exact condSubsOK_mkAndCond (ihl js) (ihr _)
  | or l r ihl ihr =>
    intro js
    by_cases hft : (isFTLeaf l && isFTLeaf r) = true
    · simp only [cmp, hft, if_true]
      trivial
    · rw [Bool.not_eq_true] at hft
      by_cases hcj : (containsJoin l || containsJoin r) = true
      · simp only [cmp, hft, Bool.false_eq_true, if_false, hcj, if_true]
        apply condSubsOK_mkOrCond
        · by_cases hl : containsJoin l = true
          · simp only [hl, if_true]
            exact emit_pid_shape tbl subs _ _
          · rw [Bool.not_eq_true] at hl
            simp only [hl, Bool.false_eq_true, if_false]
            exact ihl js
        · by_cases hr : containsJoin r = true
          · simp only [hr, if_true]
            exact emit_pid_shape tbl subs _ _
          · rw [Bool.not_eq_true] at hr
            simp only [hr, Bool.false_eq_true, if_false]
            exact ihr js
      · rw [Bool.not_eq_true] at hcj
        simp only [cmp, hft, hcj, Bool.false_eq_true, if_false]
        exact condSubsOK_mkOrCond (ihl js) (ihr _)
  | not a ih =>
    intro js
    by_cases hcj : containsJoin a = true
    · simp only [cmp, hcj, if_true]
      exact emit_pid_shape tbl subs _ _
    · rw [Bool.not_eq_true] at hcj
      simp only [cmp, hcj, Bool.false_eq_true, if_false]
      exact ih js

/-! ## Lemmas about the wire codec -/

theorem deserialize_ok_iff : ∀ w : Wire, (deserialize w).isOk = true ↔ wireWellFormed w = true := by
  intro w
  induction w with
  | absent => simp [deserialize, wireWellFormed, Except.isOk, Except.toBool]
  | node kind uidF minF maxF keywordF queryF left right inner ihl ihr ihi =>
    unfold deserialize wireWellFormed
    split_ifs
    · simp [Except.isOk, Except.toBool]
    · simp [Except.isOk, Except.toBool]
    · cases uidF <;> simp [parseUid, exceptMap, wvInt, Except.isOk, Except.toBool]
    · cases uidF <;> simp [parseUid, exceptMap, wvInt, Except.isOk, Except.toBool]
    · cases minF <;> cases maxF <;>
        simp [parseOptInt, dateOf, wvOptInt, Except.isOk, Except.toBool]
    · cases keywordF <;>
        simp only [parseText, exceptMap, wvText, Except.isOk, Except.toBool] <;>
        first
        | (split_ifs <;> simp_all [exceptMap, Except.isOk, Except.toBool])
        | simp
    · cases queryF <;>
        simp only [parseText, exceptMap, wvText, Except.isOk, Except.toBool] <;>
        first
        | (split_ifs <;> simp_all [exceptMap, Except.isOk, Except.toBool])
        | simp
    · cases hl : deserialize left <;> cases hr : deserialize right <;>
        simp_all [except2, Except.isOk, Except.toBool]
    · cases hl : deserialize left <;> cases hr : deserialize right <;>
        simp_all [except2, Except.isOk, Except.toBool]
    · cases hi : deserialize inner <;>
        simp_all [exceptMap, Except.isOk, Except.toBool]
    · simp [Except.isOk, Except.toBool]

/-! ## Claim theorems -/

/-- C8: for all predicates `p`, `simplify (simplify p)` is structurally
equal to `simplify p` — the simplifier is idempotent. -/
theorem C8_simplify_idempotent (p : Filter) :
    Filter.simplify (Filter.simplify p) = Filter.simplify p :=
  Filter.simplify_of_isSimp _ (Filter.isSimp_simplify p)

/-- C5: `And(Author(a), Author(b))` with `a ≠ b` simplifies to `False`
and the compiled query for `Author(4) & Author(5)` after simplification
is `SELECT p.pid FROM posts AS p WHERE FALSE` with no parameters; with
`a = b` the conjunction simplifies to the single `Author` leaf; the
contradiction rule does not apply to `Keyword` or `FullText` leaves. -/
theorem C5_author_contradiction (a b : Int) (hab : a ≠ b)
    (s t : String) (hst : s ≠ t) :
    Filter.simplify (.and (.author a) (.author b)) = Filter.fls ∧
    Filter.simplify (.and (.author a) (.author a)) = Filter.author a ∧
    ((Filter.and (.author 4) (.author 5)).simplify).compile.emit ["pid"]
      = ("SELECT p.pid FROM posts AS p WHERE FALSE", []) ∧
    Filter.simplify (.and (.keyword s) (.keyword t))
      = Filter.and (.keyword s) (.keyword t) ∧
    Filter.simplify (.and (.fulltext s) (.fulltext t))
      = Filter.and (.fulltext s) (.fulltext t) := by
  refine ⟨?_, ?_, by decide, ?_, ?_⟩
  · simp [Filter.simplify, Filter.mkAnd, Filter.authorPair, hab]
  · simp [Filter.simplify, Filter.mkAnd]
  · simp [Filter.simplify, Filter.mkAnd, Filter.authorPair, hst]
  · simp [Filter.simplify, Filter.mkAnd, Filter.authorPair, hst]

/-- Witness for C5 at `a = 4, b = 5, s = "nengo", t = "gui"`. -/
theorem C5_author_contradiction_witness :
    ((4 : Int) ≠ 5 ∧ "nengo" ≠ "gui") ∧
    (Filter.simplify (.and (.author 4) (.author 5)) = Filter.fls ∧
     Filter.simplify (.and (.author 4) (.author 4)) = Filter.author 4 ∧
     ((Filter.and (.author 4) (.author 5)).simplify).compile.emit ["pid"]
       = ("SELECT p.pid FROM posts AS p WHERE FALSE", []) ∧
     Filter.simplify (.and (.keyword "nengo") (.keyword "gui"))
       = Filter.and (.keyword "nengo") (.keyword "gui") ∧
     Filter.simplify (.and (.fulltext "nengo") (.fulltext "gui"))
       = Filter.and (.fulltext "nengo") (.fulltext "gui")) :=
  ⟨⟨by decide, by decide⟩,
   C5_author_contradiction 4 5 (by decide) "nengo" "gui" (by decide)⟩

/-- C7: a `DateRange` leaf compiles to exactly the comparison terms for
the bounds that are present — two terms joined by `AND` when both are
given, one term when exactly one is given — and a `DateRange` with both
bounds absent simplifies to `True` and yields a query with no WHERE
clause and no bound parameters. -/
theorem C7_date_range (a b : Int) (tbl : String) (subs : List (String × String))
    (js : List JoinKind) :
    cmp tbl subs (.date (some a) (some b)) js
      = (js, Cond.andE (Cond.dateGe a) (Cond.dateLe b)) ∧
    cmp tbl subs (.date (some a) none) js = (js, Cond.dateGe a) ∧
    cmp tbl subs (.date none (some b)) js = (js, Cond.dateLe b) ∧
    Filter.simplify (Filter.date none none) = Filter.tru ∧
    cmp tbl subs (.date none none) js = (js, Cond.tt) ∧
    (Filter.date none none).compile.emit ["pid"]
      = ("SELECT p.pid FROM posts AS p", []) ∧
    (Filter.date (some a) (some b)).compile.emit ["pid"]
      = ("SELECT p.pid FROM posts AS p WHERE ((p.date >= ?) AND (p.date <= ?))",
         [Param.int a, Param.int b]) ∧
    (Filter.date (some a) none).compile.emit ["pid"]
      = ("SELECT p.pid FROM posts AS p WHERE (p.date >= ?)", [Param.int a]) ∧
    (Filter.date none (some b)).compile.emit ["pid"]
      = ("SELECT p.pid FROM posts AS p WHERE (p.date <= ?)", [Param.int b]) :=
  ⟨rfl, rfl, rfl, rfl, rfl, rfl, rfl, rfl, rfl⟩

/-- C3: an `Or` of two `FullText` leaves merges into a single full-text
join whose one combined match expression is `(term_a OR term_b)`,
preserving argument order; every `FullText` leaf binds its query text
with quote/apostrophe characters stripped and wrapped as a phrase
term. -/
theorem C3_fulltext_merge (a b : String) (tbl : String)
    (subs : List (String × String)) (js : List JoinKind) :
    cmp tbl subs (.or (.fulltext a) (.fulltext b)) js
      = (js ++ [JoinKind.fulltext],
         Cond.ftMatch js.length ("(" ++ ftPhrase a ++ " OR " ++ ftPhrase b ++ ")")) ∧
    cmp tbl subs (.fulltext a) js
      = (js ++ [JoinKind.fulltext], Cond.ftMatch js.length (ftPhrase a)) ∧
    ftPhrase a
      = "\"" ++ String.mk (a.toList.filter (fun c => !(c == '"' || c == '\''))) ++ "\"" ∧
    ((Filter.or (.fulltext "riser\"'") (.fulltext "blarg")).compile).emit ["pid"]
      = ("SELECT p.pid FROM posts AS p JOIN fulltext AS f ON (f.rowid = p.pid) WHERE (f.content MATCH ?) GROUP BY p.pid",
         [Param.str "(\"riser\" OR \"blarg\")"]) :=
  ⟨rfl, rfl, rfl, by decide⟩

/-- C10: `compile()` with no base-table argument uses base table
`posts` with base alias `p`, so every emitted query begins
`SELECT p.<col>, ... FROM posts AS p`. -/
theorem C10_default_base_table (f : Filter) (cols : List String) :
    f.compile = f.compile "posts" [] ∧
    ∃ r1 r2 r3, ((f.compile).emit cols).1
      = "SELECT " ++ projClause cols ++ " FROM " ++ "posts" ++ " AS p"
          ++ r1 ++ r2 ++ r3 :=
  ⟨rfl, joinsClause (cmp "posts" [] f []).1,
   (if (cmp "posts" [] f []).2 = Cond.tt then ""
    else " WHERE " ++ (renderCond (cmp "posts" [] f []).1 (cmp "posts" [] f []).2).1),
   (if (cmp "posts" [] f []).1.isEmpty then "" else " GROUP BY p.pid"),
   rfl⟩

/-- C1 as stated is false: the claim requires every `Or` operand
containing a join-based leaf to be compiled as a `pid IN (...)`
membership test, but an `Or` of two `FullText` leaves is instead merged
into a single inline join; the emitted query contains no ` IN (`
fragment at all. -/
theorem C1_counterexample :
    containsJoin (Filter.fulltext "riser") = true ∧
    containsJoin (Filter.fulltext "blarg") = true ∧
    (((Filter.or (.fulltext "riser") (.fulltext "blarg")).compile).emit ["pid"]).1
      = "SELECT p.pid FROM posts AS p JOIN fulltext AS f ON (f.rowid = p.pid) WHERE (f.content MATCH ?) GROUP BY p.pid" ∧
    ¬ (" IN (".toList <:+:
        ((((Filter.or (.fulltext "riser") (.fulltext "blarg")).compile).emit ["pid"]).1).toList) := by
  refine ⟨rfl, rfl, by decide, by decide⟩

/-- C1 amended: except for the one merge optimisation (an `Or` whose
two sides are both `FullText` leaves), every `Or` operand containing a
join-based leaf is compiled as a self-contained independent query over
a fresh join list and referenced as a `pid IN (...)` membership test
(wrapped in `NOT (...)` for `Not`); row-local `Or` sides are compiled
inline, and row-local subtrees never contain an isolation subquery. -/
theorem C1_isolation (tbl : String) (subs : List (String × String))
    (js : List JoinKind) (l r a x : Filter)
    (hor : (containsJoin l || containsJoin r) = true)
    (hft : (isFTLeaf l && isFTLeaf r) = false)
    (hnot : containsJoin a = true)
    (hrow : containsJoin x = false) :
    cmp tbl subs (.or l r) js
      = (js, mkOrCond (orSideCond tbl subs js l) (orSideCond tbl subs js r)) ∧
    (containsJoin l = true → isInQ (orSideCond tbl subs js l) = true) ∧
    (containsJoin r = true → isInQ (orSideCond tbl subs js r) = true) ∧
    (containsJoin l = false → orSideCond tbl subs js l = (cmp tbl subs l js).2) ∧
    (containsJoin r = false → orSideCond tbl subs js r = (cmp tbl subs r js).2) ∧
    cmp tbl subs (.not a) js
      = (js, Cond.notE (Cond.inQuery
          (emitQuery tbl subs ["pid"] (cmp tbl subs a []).1 (cmp tbl subs a []).2).1
          (emitQuery tbl subs ["pid"] (cmp tbl subs a []).1 (cmp tbl subs a []).2).2)) ∧
    condNoInQ ((cmp tbl subs x js).2) = true := by
  refine ⟨?_, ?_, ?_, ?_, ?_, ?_, cmp_rowLocal_noInQ tbl subs x hrow js⟩
  · simp only [cmp, hft, Bool.false_eq_true, if_false, hor, if_true]
    rfl
  · intro h; simp [orSideCond, h, isInQ]
  · intro h; simp [orSideCond, h, isInQ]
  · intro h; simp [orSideCond, h]
  · intro h; simp [orSideCond, h]
  · simp only [cmp, hnot, if_true]

/-- Witness for C1_isolation at
`l = FullText "riser"`, `r = Keyword "nengo"`, `a = Keyword "nengo"`,
`x = Author 4`. -/
theorem C1_isolation_witness :
    ((containsJoin (Filter.fulltext "riser") || containsJoin (Filter.keyword "nengo")) = true ∧
     (isFTLeaf (Filter.fulltext "riser") && isFTLeaf (Filter.keyword "nengo")) = false ∧
     containsJoin (Filter.keyword "nengo") = true ∧
     containsJoin (Filter.author 4) = false) ∧
    (cmp "posts" [] (.or (.fulltext "riser") (.keyword "nengo")) []
      = ([], mkOrCond (orSideCond "posts" [] [] (Filter.fulltext "riser"))
                       (orSideCond "posts" [] [] (Filter.keyword "nengo"))) ∧
     (containsJoin (Filter.fulltext "riser") = true →
        isInQ (orSideCond "posts" [] [] (Filter.fulltext "riser")) = true) ∧
     (containsJoin (Filter.keyword "nengo") = true →
        isInQ (orSideCond "posts" [] [] (Filter.keyword "nengo")) = true) ∧
     (containsJoin (Filter.fulltext "riser") = false →
        orSideCond "posts" [] [] (Filter.fulltext "riser")
          = (cmp "posts" [] (Filter.fulltext "riser") []).2) ∧
     (containsJoin (Filter.keyword "nengo") = false →
        orSideCond "posts" [] [] (Filter.keyword "nengo")
          = (cmp "posts" [] (Filter.keyword "nengo") []).2) ∧
     cmp "posts" [] (.not (.keyword "nengo")) []
       = ([], Cond.notE (Cond.inQuery
           (emitQuery "posts" [] ["pid"]
             (cmp "posts" [] (Filter.keyword "nengo") []).1
             (cmp "posts" [] (Filter.keyword "nengo") []).2).1
           (emitQuery "posts" [] ["pid"]
             (cmp "posts" [] (Filter.keyword "nengo") []).1
             (cmp "posts" [] (Filter.keyword "nengo") []).2).2)) ∧
     condNoInQ ((cmp "posts" [] (Filter.author 4) []).2) = true) :=
  ⟨⟨by decide, by decide, by decide, by decide⟩,
   C1_isolation "posts" [] [] (Filter.fulltext "riser") (Filter.keyword "nengo")
     (Filter.keyword "nengo") (Filter.author 4)
     (by decide) (by decide) (by decide) (by decide)⟩

/-- C2 as stated is false: it requires the *first* occurrence of a join
kind in an inline `And`-chain to receive the bare alias prefix (`k`),
but for `Keyword("nengo") & Keyword("nengo-gui")` the first join is
aliased `k1`, not `k` — the bare prefix is used only when the kind
occurs exactly once. -/
theorem C2_counterexample :
    aliasFor ((Filter.and (.keyword "nengo") (.keyword "nengo-gui")).compile).joins 0
      = "k1" ∧
    ¬ aliasFor ((Filter.and (.keyword "nengo") (.keyword "nengo-gui")).compile).joins 0
      = "k" ∧
    (((Filter.and (.keyword "nengo") (.keyword "nengo-gui")).compile).emit ["pid"]).1
      = "SELECT p.pid FROM posts AS p JOIN keywords AS k1 ON (k1.pid = p.pid) JOIN keywords AS k2 ON (k2.pid = p.pid) WHERE ((k1.keyword = ?) AND (k2.keyword = ?)) GROUP BY p.pid" := by
  refine ⟨by decide, by decide, by decide⟩

/-- C2 amended: an `And`-chain of join-based leaves — of one kind or of
mixed kinds — compiles inline: the fragment's joins are exactly the
chain's leaves in order and no operand is wrapped in a subquery; every
join receives a distinct alias; a kind occurring exactly once in the
fragment gets the bare prefix (`k`, `f`); a kind occurring twice or
more numbers each of its occurrences with its 1-based position among
the joins of that kind — the kind's first occurrence gets ordinal 1
and each next occurrence of the kind gets the previous occurrence's
ordinal plus one — so the occurrences are numbered sequentially
`k1, k2, …` in join order. -/
theorem C2_alias_allocation (tbl : String) (subs : List (String × String))
    (f : Filter) (hchain : andChainJoin f = true) :
    (f.compile tbl subs).joins = chainKinds f ∧
    condNoInQ (f.compile tbl subs).cond = true ∧
    (∀ i j ki kj, i < j →
       (f.compile tbl subs).joins.get? i = some ki →
       (f.compile tbl subs).joins.get? j = some kj →
       aliasFor (f.compile tbl subs).joins i ≠ aliasFor (f.compile tbl subs).joins j) ∧
    (∀ i k, (f.compile tbl subs).joins.get? i = some k →
       (f.compile tbl subs).joins.count k = 1 →
       aliasFor (f.compile tbl subs).joins i = k.letter) ∧
    (∀ i k, (f.compile tbl subs).joins.get? i = some k →
       2 ≤ (f.compile tbl subs).joins.count k →
       aliasFor (f.compile tbl subs).joins i
         = k.letter ++ natStr (((f.compile tbl subs).joins.take i).count k + 1)) ∧
    (∀ i k, (f.compile tbl subs).joins.get? i = some k →
       (∀ i', i' < i → (f.compile tbl subs).joins.get? i' ≠ some k) →
       2 ≤ (f.compile tbl subs).joins.count k →
       aliasFor (f.compile tbl subs).joins i = k.letter ++ natStr 1) ∧
    (∀ i j k, i < j →
       (f.compile tbl subs).joins.get? i = some k →
       (f.compile tbl subs).joins.get? j = some k →
       (∀ m, i < m → m < j → (f.compile tbl subs).joins.get? m ≠ some k) →
       2 ≤ (f.compile tbl subs).joins.count k →
       aliasFor (f.compile tbl subs).joins i
           = k.letter ++ natStr (((f.compile tbl subs).joins.take i).count k + 1) ∧
       aliasFor (f.compile tbl subs).joins j
           = k.letter ++ natStr (((f.compile tbl subs).joins.take i).count k + 1 + 1)) ∧
    (∀ k n, chainKinds f = List.replicate n k → 2 ≤ n →
       ∀ i, i < n →
         aliasFor (f.compile tbl subs).joins i = k.letter ++ natStr (i + 1)) ∧
    (∀ k, chainKinds f = [k] → aliasFor (f.compile tbl subs).joins 0 = k.letter) := by
  obtain ⟨hjoins, hcond⟩ := cmp_andChain tbl subs f hchain []
  have hj : (f.compile tbl subs).joins = chainKinds f := by
    show (cmp tbl subs f []).1 = chainKinds f
    rw [hjoins, List.nil_append]
  refine ⟨hj, hcond, ?_, ?_, ?_, ?_, ?_, ?_, ?_⟩
  · intro i j ki kj hij hi hjx
    exact aliasFor_ne hij hi hjx
  · intro i k hi h1
    exact aliasFor_bare hi h1
  · intro i k hi h2
    exact aliasFor_numbered hi h2
  · intro i k hi hfirst h2
    rw [aliasFor_numbered hi h2, count_take_eq_zero_of_first hfirst]
  · intro i j k hij hi hjx hmid h2
    refine ⟨aliasFor_numbered hi h2, ?_⟩
    rw [aliasFor_numbered hjx h2, count_take_between hij hi hmid]
  · intro k n hrep hn i hi
    rw [hj, hrep]
    exact aliasFor_replicate hn hi
  · intro k hone
    rw [hj, hone]
    cases k <;> rfl

/-- Witness for C2_alias_allocation at the mixed-kind chain
`Keyword "a" & FullText "b" & Keyword "c"`: the unique full-text join
gets the bare alias `f`, the two keyword joins are numbered `k1`, `k2`
in join order. -/
theorem C2_alias_allocation_witness :
    andChainJoin (Filter.and (.and (.keyword "a") (.fulltext "b")) (.keyword "c")) = true ∧
    ((Filter.and (.and (.keyword "a") (.fulltext "b")) (.keyword "c")).compile
        "posts" []).joins
      = chainKinds (Filter.and (.and (.keyword "a") (.fulltext "b")) (.keyword "c")) ∧
    aliasFor ((Filter.and (.and (.keyword "a") (.fulltext "b")) (.keyword "c")).compile
        "posts" []).joins 0 = "k1" ∧
    aliasFor ((Filter.and (.and (.keyword "a") (.fulltext "b")) (.keyword "c")).compile
        "posts" []).joins 1 = "f" ∧
    aliasFor ((Filter.and (.and (.keyword "a") (.fulltext "b")) (.keyword "c")).compile
        "posts" []).joins 2 = "k2" := by
  have h := C2_alias_allocation "posts" []
    (Filter.and (.and (.keyword "a") (.fulltext "b")) (.keyword "c")) (by decide)
  exact ⟨by decide, h.1, by decide, by decide, by decide⟩

/-- C4: `needs_group_by` is set exactly when at least one join was
added inline; the emitted query carries its own `GROUP BY` clause on
the post-id column if and only if `needs_group_by`; and the emitted
query omits the WHERE clause exactly when the WHERE expression is
trivially true. -/
theorem C4_group_by_where (f : Filter) (subs : List (String × String))
    (hsubs : subs = [] ∨ subs = [("posts", "posts_history")]) :
    ((f.compile "posts" subs).needsGroupBy = true
        ↔ (f.compile "posts" subs).joins ≠ []) ∧
    ((" GROUP BY p.pid").toList <:+ (((f.compile "posts" subs).emit ["pid"]).1).toList
        ↔ (f.compile "posts" subs).needsGroupBy = true) ∧
    ((f.compile "posts" subs).cond = Cond.tt →
        ¬ (" WHERE ".toList <:+: (((f.compile "posts" subs).emit ["pid"]).1).toList)) ∧
    ((f.compile "posts" subs).cond ≠ Cond.tt →
        " WHERE ".toList <:+: (((f.compile "posts" subs).emit ["pid"]).1).toList) := by
  have hT : ∀ ch ∈ ((List.lookup "posts" subs).getD "posts").toList, ch ≠ 'W' := by
    rcases hsubs with rfl | rfl
    · intro ch hch
      exact ne_W_of_mem_lit (by decide) hch
    · intro ch hch
      exact ne_W_of_mem_lit (by decide) hch
  obtain ⟨hA, hB, hC⟩ := emitQuery_props "posts" subs
    (cmp "posts" subs f []).1 (cmp "posts" subs f []).2 hT
  have hng : (f.compile "posts" subs).needsGroupBy = true
      ↔ (cmp "posts" subs f []).1 ≠ [] := by
    show (!(cmp "posts" subs f []).1.isEmpty) = true ↔ (cmp "posts" subs f []).1 ≠ []
    cases (cmp "posts" subs f []).1 <;> simp
  exact ⟨hng, hA.trans hng.symm, hB, hC⟩

/-- Witness for C4 at `f = Keyword "nengo"`, `subs = []`. -/
theorem C4_group_by_where_witness :
    (([] : List (String × String)) = [] ∨
      ([] : List (String × String)) = [("posts", "posts_history")]) ∧
    ((((Filter.keyword "nengo").compile "posts" []).needsGroupBy = true
        ↔ ((Filter.keyword "nengo").compile "posts" []).joins ≠ []) ∧
     ((" GROUP BY p.pid").toList
          <:+ ((((Filter.keyword "nengo").compile "posts" []).emit ["pid"]).1).toList
        ↔ ((Filter.keyword "nengo").compile "posts" []).needsGroupBy = true) ∧
     (((Filter.keyword "nengo").compile "posts" []).cond = Cond.tt →
        ¬ (" WHERE ".toList <:+:
            ((((Filter.keyword "nengo").compile "posts" []).emit ["pid"]).1).toList)) ∧
     (((Filter.keyword "nengo").compile "posts" []).cond ≠ Cond.tt →
        " WHERE ".toList <:+:
            ((((Filter.keyword "nengo").compile "posts" []).emit ["pid"]).1).toList)) :=
  ⟨Or.inl rfl, C4_group_by_where (Filter.keyword "nengo") [] (Or.inl rfl)⟩

/-- C6: with history mode requested (`table_subs` mapping `posts` to
`posts_history`), the base-table substitution is applied to the outer
query and to every nested independent query generated during
isolation, while the keyword/full-text join tables of every (sub)query
keep their original names: the join list and hence every join clause
is identical to the non-history compilation, and each join clause
references the fixed tables `keywords`/`fulltext`. -/
theorem C6_history_substitution (f : Filter) (cols : List String) :
    (∃ r1 r2 r3, ((f.compile "posts" [("posts", "posts_history")]).emit cols).1
        = "SELECT " ++ projClause cols ++ " FROM " ++ "posts_history" ++ " AS p"
            ++ r1 ++ r2 ++ r3) ∧
    CondSubsOK "posts_history" (f.compile "posts" [("posts", "posts_history")]).cond ∧
    (f.compile "posts" [("posts", "posts_history")]).joins
      = (f.compile "posts" []).joins ∧
    joinsClause (f.compile "posts" [("posts", "posts_history")]).joins
      = joinsClause (f.compile "posts" []).joins ∧
    (∀ (js : List JoinKind) (j : Nat) (k : JoinKind), js.get? j = some k →
       (k = JoinKind.keyword →
         joinClause js j = " JOIN keywords AS " ++ aliasFor js j
            ++ " ON (" ++ aliasFor js j ++ ".pid = p.pid)") ∧
       (k = JoinKind.fulltext →
         joinClause js j = " JOIN fulltext AS " ++ aliasFor js j
            ++ " ON (" ++ aliasFor js j ++ ".rowid = p.pid)")) := by
  refine ⟨?_, ?_, ?_, ?_, ?_⟩
  · exact ⟨joinsClause (cmp "posts" [("posts", "posts_history")] f []).1,
      (if (cmp "posts" [("posts", "posts_history")] f []).2 = Cond.tt then ""
       else " WHERE " ++ (renderCond (cmp "posts" [("posts", "posts_history")] f []).1
              (cmp "posts" [("posts", "posts_history")] f []).2).1),
      (if (cmp "posts" [("posts", "posts_history")] f []).1.isEmpty then ""
       else " GROUP BY p.pid"),
      rfl⟩
  · exact cmp_cond_subsOK "posts" [("posts", "posts_history")] f []
  · exact cmp_joins_subs "posts" [("posts", "posts_history")] [] f []
  · exact congrArg joinsClause (cmp_joins_subs "posts" [("posts", "posts_history")] [] f [])
  · intro js j k hk
    constructor
    · intro hkk
      subst hkk
      unfold joinClause
      rw [hk]
    · intro hkf
      subst hkf
      unfold joinClause
      rw [hk]

/-- C9: `deserialize` succeeds exactly on well-formed wire payloads —
unknown `kind` discriminators and missing/mistyped leaf fields are
rejected with a validation failure, never silently coerced — and
`_api_get_posts_list` surfaces any such failure to the caller as a
`ValidationError`. -/
theorem C9_deserialize_validation (w : Wire) :
    ((deserialize w).isOk = true ↔ wireWellFormed w = true) ∧
    (wireWellFormed w = false → apiGetPostsListFilter (some w) = .error ()) ∧
    (∀ f, deserialize w = .ok f → wireWellFormed w = true) := by
  have h := deserialize_ok_iff w
  refine ⟨h, ?_, ?_⟩
  · intro hw
    unfold apiGetPostsListFilter
    cases hd : deserialize w with
    | ok f =>
      exfalso
      have hok : (deserialize w).isOk = true := by rw [hd]; rfl
      rw [h.mp hok] at hw
      cases hw
    | error e => simp [hd]
  · intro f hf
    exact h.mp (by rw [hf]; rfl)

/-! ## Conformance of the model with the in-repository test suites
(`tivua/test/test_database_filters.py`, `tivua/tests/test_database_filters.py`) -/

theorem modelMatches_simp_author_pair_contra : Filter.simplify (.and (.author 4) (.author 5)) = .fls := by decide
theorem modelMatches_simp_author_pair_same : Filter.simplify (.and (.author 5) (.author 5)) = .author 5 := by decide
theorem modelMatches_simp_date_empty : Filter.simplify (.date none none) = .tru := by decide
theorem modelMatches_simp_double_negation : Filter.simplify (.not (.not (.and (.author 4) (.uid 5))))
    = .and (.author 4) (.uid 5) := by decide
theorem modelMatches_simp_keywords_kept : Filter.simplify (.and (.keyword "a") (.keyword "b"))
    = .and (.keyword "a") (.keyword "b") := by decide

-- test_simple_author_filter
theorem modelMatches_sql_author : (Filter.author 4).compile.emit ["pid"]
    = ("SELECT p.pid FROM posts AS p WHERE (p.author = ?)", [Param.int 4]) := by decide
-- test_simple_uid_filter
theorem modelMatches_sql_uid : (Filter.uid 5).compile.emit ["pid"]
    = ("SELECT p.pid FROM posts AS p WHERE ((p.cuid = ?) OR (p.muid = ?))",
       [Param.int 5, Param.int 5]) := by decide
-- test_simple_filter_date_interval
theorem modelMatches_sql_date_interval : (Filter.date (some 1) (some 2)).compile.emit ["pid"]
    = ("SELECT p.pid FROM posts AS p WHERE ((p.date >= ?) AND (p.date <= ?))",
       [Param.int 1, Param.int 2]) := by decide
theorem modelMatches_sql_date_empty : ((Filter.date none none).simplify).compile.emit ["pid"]
    = ("SELECT p.pid FROM posts AS p", []) := by decide
-- test_logical_and_filter (contradiction)
theorem modelMatches_sql_author_contradiction : ((Filter.and (.author 4) (.author 5)).simplify).compile.emit ["pid"]
    = ("SELECT p.pid FROM posts AS p WHERE FALSE", []) := by decide
-- test_filter_keywords, single keyword
theorem modelMatches_sql_keyword_single : (Filter.keyword "nengo").compile.emit ["pid"]
    = ("SELECT p.pid FROM posts AS p JOIN keywords AS k ON (k.pid = p.pid) WHERE (k.keyword = ?) GROUP BY p.pid",
       [Param.str "nengo"]) := by decide
-- test_filter_keywords, two keywords
theorem modelMatches_sql_keyword_pair : ((Filter.and (.keyword "nengo") (.keyword "nengo-gui")).simplify).compile.emit ["pid"]
    = ("SELECT p.pid FROM posts AS p JOIN keywords AS k1 ON (k1.pid = p.pid) JOIN keywords AS k2 ON (k2.pid = p.pid) WHERE ((k1.keyword = ?) AND (k2.keyword = ?)) GROUP BY p.pid",
       [Param.str "nengo", Param.str "nengo-gui"]) := by decide
-- test_logical_not_filter (keyword isolation)
theorem modelMatches_sql_not_keyword : ((Filter.not (.keyword "nengo")).simplify).compile.emit ["pid"]
    = ("SELECT p.pid FROM posts AS p WHERE (NOT (p.pid IN (SELECT p.pid FROM posts AS p JOIN keywords AS k ON (k.pid = p.pid) WHERE (k.keyword = ?) GROUP BY p.pid)))",
       [Param.str "nengo"]) := by decide
-- test_filter_fulltext (merged OR)
theorem modelMatches_sql_fulltext_merge : ((Filter.or (.fulltext "riser\"'") (.fulltext "blarg")).simplify).compile.emit ["pid"]
    = ("SELECT p.pid FROM posts AS p JOIN fulltext AS f ON (f.rowid = p.pid) WHERE (f.content MATCH ?) GROUP BY p.pid",
       [Param.str "(\"riser\" OR \"blarg\")"]) := by decide
-- test_filter_fulltext (isolation of both sides)
theorem modelMatches_sql_fulltext_or_keyword : ((Filter.or (.fulltext "riser\"'") (.keyword "nengo")).simplify).compile.emit ["pid"]
    = ("SELECT p.pid FROM posts AS p WHERE ((p.pid IN (SELECT p.pid FROM posts AS p JOIN fulltext AS f ON (f.rowid = p.pid) WHERE (f.content MATCH ?) GROUP BY p.pid)) OR (p.pid IN (SELECT p.pid FROM posts AS p JOIN keywords AS k ON (k.pid = p.pid) WHERE (k.keyword = ?) GROUP BY p.pid)))",
       [Param.str "\"riser\"", Param.str "nengo"]) := by decide
-- test_filter_fulltext (row-local sibling stays inline in the isolated side)
theorem modelMatches_sql_fulltext_or_keyword_author : ((Filter.or (.fulltext "riser\"'") (.and (.keyword "nengo") (.author 4))).simplify).compile.emit ["pid"]
    = ("SELECT p.pid FROM posts AS p WHERE ((p.pid IN (SELECT p.pid FROM posts AS p JOIN fulltext AS f ON (f.rowid = p.pid) WHERE (f.content MATCH ?) GROUP BY p.pid)) OR (p.pid IN (SELECT p.pid FROM posts AS p JOIN keywords AS k ON (k.pid = p.pid) WHERE ((k.keyword = ?) AND (p.author = ?)) GROUP BY p.pid)))",
       [Param.str "\"riser\"", Param.str "nengo", Param.int 4]) := by decide
-- test_logical_and_filter_four_tags
theorem modelMatches_sql_four_tags : ((Filter.and (.and (.and (.keyword "test1") (.keyword "test2")) (.keyword "test3")) (.keyword "test4")).simplify).compile.emit ["pid"]
    = ("SELECT p.pid FROM posts AS p JOIN keywords AS k1 ON (k1.pid = p.pid) JOIN keywords AS k2 ON (k2.pid = p.pid) JOIN keywords AS k3 ON (k3.pid = p.pid) JOIN keywords AS k4 ON (k4.pid = p.pid) WHERE ((((k1.keyword = ?) AND (k2.keyword = ?)) AND (k3.keyword = ?)) AND (k4.keyword = ?)) GROUP BY p.pid",
       [Param.str "test1", Param.str "test2", Param.str "test3", Param.str "test4"]) := by decide
-- test_simple_author_filter_history
theorem modelMatches_sql_author_history : ((Filter.author 4).compile "posts" [("posts", "posts_history")]).emit ["pid"]
    = ("SELECT p.pid FROM posts_history AS p WHERE (p.author = ?)", [Param.int 4]) := by decide
theorem modelMatches_sql_not_keyword_history : (((Filter.not (.keyword "nengo")).simplify).compile "posts" [("posts", "posts_history")]).emit ["pid"]
    = ("SELECT p.pid FROM posts_history AS p WHERE (NOT (p.pid IN (SELECT p.pid FROM posts_history AS p JOIN keywords AS k ON (k.pid = p.pid) WHERE (k.keyword = ?) GROUP BY p.pid)))",
       [Param.str "nengo"]) := by decide

theorem modelMatches_sql_or_inline :
    ((Filter.or (.author 4) (.uid 5)).simplify).compile.emit ["pid"]
    = ("SELECT p.pid FROM posts AS p WHERE ((p.author = ?) OR ((p.cuid = ?) OR (p.muid = ?)))",
       [Param.int 4, Param.int 5, Param.int 5]) := by decide

theorem modelMatches_sql_not_inline :
    ((Filter.not (.and (.author 4) (.uid 5))).simplify).compile.emit ["pid"]
    = ("SELECT p.pid FROM posts AS p WHERE (NOT ((p.author = ?) AND ((p.cuid = ?) OR (p.muid = ?))))",
       [Param.int 4, Param.int 5, Param.int 5]) := by decide

end Tivua
